import Mathlib

/-!
Verification of the darwin-core-to-rerun ingestion pipeline (`src/main.rs`).

The development shallowly embeds the repository's data model and operations:

* `Occurrence`, `calc_epoch_time` and `read_gbif_file` are translated from
  `src/main.rs`.  Rust machine integers are modelled as `Int`/`Nat` with the
  explicit wrap-around of the source's `as` casts (`asI32`, `asU32`, `asU64`).
  `f64` latitude/longitude payloads are only moved around by the pipeline
  (never used arithmetically), so they are carried as rationals (`F64 := ℚ`),
  which keeps every definition executable and decidable.
* The polars `DataFrame` is modelled column-orientedly: the five columns the
  program recognises, each optionally present, each a list of optional values.
* chrono's `NaiveDate::from_ymd_opt` / `and_hms_opt` / `timestamp` (an external
  crate, source not in this repository) are modelled from the specification:
  a triple is accepted iff it is a proleptic-Gregorian calendar date whose year
  lies in chrono's representable range, and the timestamp of a valid date is
  86400 times its day offset from 1970-01-01 (midnight UTC).
* `lat_lon_to_xyz` (from the external `rerun_earth` crate, source not in this
  repository) is modelled from the specification over the reals.
-/

/-- Modify the element at index `i` of a list, the identity when `i` is out of
range.  Models the in-place field assignment `occurrences[i].f = v` of the
source (where `i` is always in range). -/
def modifyAt {α : Type} : List α → Nat → (α → α) → List α
  | [], _, _ => []
  | x :: xs, 0, f => f x :: xs
  | x :: xs, n + 1, f => x :: modifyAt xs n f

/-- `f64` payloads: `read_gbif_file` performs no arithmetic on latitude or
longitude values, it only copies them, so any carrier with decidable equality
is a faithful model; we use the rationals. -/
abbrev F64 := ℚ

/-- The per-row record of `src/main.rs` (`struct Occurrence`).  `time` is the
Rust field `time: u64`, modelled as a natural number below `2^64`. -/
@[ext]
structure Occurrence where
  decimal_latitude : F64 := 0
  decimal_longitude : F64 := 0
  year : Int := 0
  month : Int := 0
  day : Int := 0
  time : Nat := 0
deriving DecidableEq, Repr

instance : Inhabited Occurrence := ⟨{}⟩

/-- Rust `x as i32` on an `i64` value: wrap into `[-2^31, 2^31)`. -/
def asI32 (x : Int) : Int := (x + 2 ^ 31) % 2 ^ 32 - 2 ^ 31

/-- Rust `x as u32` on an `i64` value: truncate to the low 32 bits. -/
def asU32 (x : Int) : Nat := (x % 2 ^ 32).toNat

/-- Rust `x as u64` on an `i64` value: two's-complement reinterpretation. -/
def asU64 (x : Int) : Nat := (x % 2 ^ 64).toNat

/-- Gregorian leap-year rule, as chrono implements it for the proleptic
Gregorian calendar. -/
def isLeapYear (y : Int) : Bool := y % 4 == 0 && (y % 100 != 0 || y % 400 == 0)

/-- Number of days of month `m` (1–12) of year `y`; `0` for out-of-range `m`. -/
def daysInMonth (y : Int) (m : Nat) : Nat :=
  match m with
  | 1 => 31
  | 2 => if isLeapYear y then 29 else 28
  | 3 => 31
  | 4 => 30
  | 5 => 31
  | 6 => 30
  | 7 => 31
  | 8 => 31
  | 9 => 30
  | 10 => 31
  | 11 => 30
  | 12 => 31
  | _ => 0

/-- Day offset of the Gregorian date `y-m-d` from 1970-01-01 (the civil-days
computation; `/` and `%` on `Int` are floor-convention for the positive
divisors used here, which is what the algorithm requires). -/
def daysFromCivil (y : Int) (m d : Nat) : Int :=
  let yy : Int := if m ≤ 2 then y - 1 else y
  let era : Int := yy / 400
  let yoe : Int := yy % 400
  let doy : Int := (153 * ((m : Int) + (if 2 < m then -3 else 9)) + 2) / 5 + (d : Int) - 1
  let doe : Int := yoe * 365 + yoe / 4 - yoe / 100 + doy
  era * 146097 + doe - 719468

/-- chrono's smallest representable year (`i32::MIN >> 13`). -/
def chronoMinYear : Int := -262144

/-- chrono's largest representable year (`i32::MAX >> 13`). -/
def chronoMaxYear : Int := 262143

/-- Modelled from the spec: chrono's `NaiveDate::from_ymd_opt` (external crate,
source not in this repository).  Succeeds iff the triple is a real proleptic
Gregorian date with the year inside chrono's representable range. -/
def fromYmdOpt (y : Int) (m d : Nat) : Option (Int × Nat × Nat) :=
  if chronoMinYear ≤ y ∧ y ≤ chronoMaxYear ∧ 1 ≤ m ∧ m ≤ 12 ∧ 1 ≤ d ∧ d ≤ daysInMonth y m
  then some (y, m, d) else none

/-- Modelled from the spec: chrono's `NaiveDate::and_hms_opt` (external crate);
succeeds iff the time-of-day components are in range, pairing the date with
the second-of-day. -/
def andHmsOpt (date : Int × Nat × Nat) (h mi s : Nat) : Option ((Int × Nat × Nat) × Nat) :=
  if h ≤ 23 ∧ mi ≤ 59 ∧ s ≤ 59 then some (date, h * 3600 + mi * 60 + s) else none

/-- Modelled from the spec: `NaiveDateTime::and_utc().timestamp()` — seconds
since the Unix epoch of the date-time, all times UTC. -/
def timestampOf (dt : (Int × Nat × Nat) × Nat) : Int :=
  daysFromCivil dt.1.1 dt.1.2.1 dt.1.2.2 * 86400 + (dt.2 : Int)

/-- `calc_epoch_time` of `src/main.rs` with the panic made explicit: `none`
models the `.unwrap()` on the `and_hms_opt` result firing.  The source first
casts its `i64` arguments (`year as i32`, `month as u32`, `day as u32`). -/
def calc_epoch_time_checked (year month day : Int) : Option Int :=
  match fromYmdOpt (asI32 year) (asU32 month) (asU32 day) with
  | some date => (andHmsOpt date 0 0 0).map timestampOf
  | none => some (-1)

/-- `calc_epoch_time` of `src/main.rs`.  The `.getD (-1)` default is never
reached: `calc_epoch_time_checked` is total (the interior unwrap cannot fire,
see the C10 theorem), so this equals the source function everywhere. -/
def calc_epoch_time (year month day : Int) : Int :=
  (calc_epoch_time_checked year month day).getD (-1)

/-- Column-oriented model of the polars `DataFrame` as `read_gbif_file` sees
it: each of the five recognised columns is optionally present (the file may
lack it) and holds one optional value per row (`none` = null cell).  In a real
polars frame every present column has length `height`; theorems that need this
carry it as a hypothesis.  Unrecognised columns are skipped by the source's
`match` and are not modelled. -/
structure DataFrame where
  decimalLatitude : Option (List (Option F64))
  decimalLongitude : Option (List (Option F64))
  year : Option (List (Option Int))
  month : Option (List (Option Int))
  day : Option (List (Option Int))
  height : Nat

/-- The shared shape of the source's five `for (i, value) in col.enumerate()`
loops, with the running index made explicit.  `upd` writes the column's field;
`dflt = some dv` models the `value.unwrap_or(dv)` loops (year/month/day),
`dflt = none` models the latitude/longitude loops, which leave the field at
its default and push the row index onto `invalid_entries` on a null value. -/
def colLoop {β : Type} (upd : Occurrence → β → Occurrence) (dflt : Option β) :
    List Occurrence × List Nat → Nat → List (Option β) → List Occurrence × List Nat
  | st, _, [] => st
  | (occs, inv), i, some v :: rest =>
      colLoop upd dflt (modifyAt occs i (fun o => upd o v), inv) (i + 1) rest
  | (occs, inv), i, none :: rest =>
      match dflt with
      | some dv => colLoop upd dflt (modifyAt occs i (fun o => upd o dv), inv) (i + 1) rest
      | none => colLoop upd dflt (occs, inv ++ [i]) (i + 1) rest

/-- One column pass, skipped entirely when the column is absent from the file
(the source's `match col.name()` then never selects it). -/
def colPass {β : Type} (upd : Occurrence → β → Occurrence) (dflt : Option β)
    (st : List Occurrence × List Nat) (col : Option (List (Option β))) :
    List Occurrence × List Nat :=
  match col with
  | some c => colLoop upd dflt st 0 c
  | none => st

/-- Field write of the `decimalLatitude` loop. -/
def updLat : Occurrence → F64 → Occurrence := fun o v => { o with decimal_latitude := v }

/-- Field write of the `decimalLongitude` loop. -/
def updLon : Occurrence → F64 → Occurrence := fun o v => { o with decimal_longitude := v }

/-- Field write of the `year` loop. -/
def updYear : Occurrence → Int → Occurrence := fun o v => { o with year := v }

/-- Field write of the `month` loop. -/
def updMonth : Occurrence → Int → Occurrence := fun o v => { o with month := v }

/-- Field write of the `day` loop. -/
def updDay : Occurrence → Int → Occurrence := fun o v => { o with day := v }

/-- The column-population phase of `read_gbif_file`: one default-initialised
`Occurrence` per row, then the five column loops.  polars iterates columns in
file order; since the five loops write pairwise disjoint fields and
`invalid_entries` is sorted and deduplicated before use, any processing order
yields the same state, and we fix the order latitude, longitude, year, month,
day. -/
def materializeState (df : DataFrame) : List Occurrence × List Nat :=
  let st0 : List Occurrence × List Nat := (List.replicate df.height default, [])
  let st1 := colPass updLat none st0 df.decimalLatitude
  let st2 := colPass updLon none st1 df.decimalLongitude
  let st3 := colPass updYear (some 1970) st2 df.year
  let st4 := colPass updMonth (some 1) st3 df.month
  colPass updDay (some 1) st4 df.day

/-- Insertion sort on the invalid-entry indices; `Vec::sort_unstable` on
`usize` is extensionally the unique sorted permutation, which this computes. -/
def insertSorted (x : Nat) : List Nat → List Nat
  | [] => [x]
  | y :: ys => if x ≤ y then x :: y :: ys else y :: insertSorted x ys

/-- `invalid_entries.sort_unstable()`. -/
def sortNat (l : List Nat) : List Nat := l.foldr insertSorted []

/-- `Vec::dedup`: drop consecutive duplicate elements. -/
def dedupConsec : List Nat → List Nat
  | [] => []
  | [x] => [x]
  | x :: y :: rest => if x = y then dedupConsec (y :: rest) else x :: dedupConsec (y :: rest)

/-- The removal loop `for i in invalid_entries.iter().rev() { occurrences.remove(*i) }`
on the ascending index list: the recursion performs the erasures largest-first,
exactly the source's descending iteration. -/
def removeInvalid {α : Type} (occs : List α) : List Nat → List α
  | [] => occs
  | i :: rest => (removeInvalid occs rest).eraseIdx i

/-- The epoch pass of `read_gbif_file`: `occurrence.time =
calc_epoch_time(..) as u64` for every element. -/
def epochPass (occs : List Occurrence) : List Occurrence :=
  occs.map (fun o => { o with time := asU64 (calc_epoch_time o.year o.month o.day) })

/-- `read_gbif_file` of `src/main.rs`, from the parsed `DataFrame` on: populate
the rows column-by-column, sort and deduplicate the flagged indices, remove
them in descending order, then fill in the epoch times. -/
def read_gbif_file (df : DataFrame) : List Occurrence :=
  let st := materializeState df
  epochPass (removeInvalid st.1 (dedupConsec (sortNat st.2)))

/-- The pipeline with the epoch pass moved in front of the invalid-row
removal — the order §4.3 of the specification describes.  Used to compare the
two phase orders (claim C6). -/
def read_gbif_file_epoch_before_filter (df : DataFrame) : List Occurrence :=
  let st := materializeState df
  removeInvalid (epochPass st.1) (dedupConsec (sortNat st.2))

/-- Indices of the null entries of a column, the enumeration starting at `k`:
the row positions the latitude/longitude loops push onto `invalid_entries`. -/
def nullIndicesFrom {β : Type} : Nat → List (Option β) → List Nat
  | _, [] => []
  | k, some _ :: rest => nullIndicesFrom (k + 1) rest
  | k, none :: rest => k :: nullIndicesFrom (k + 1) rest

/-- The multiset of row indices flagged invalid during materialization: the
null positions of the latitude column followed by those of the longitude
column (an absent column flags nothing). -/
def flaggedIndices (df : DataFrame) : List Nat :=
  (match df.decimalLatitude with
   | some c => nullIndicesFrom 0 c
   | none => []) ++
  (match df.decimalLongitude with
   | some c => nullIndicesFrom 0 c
   | none => [])

/-- The value row `i` of the populated `Occurrence` vector holds after the five
column passes (before removal and the epoch pass): present values are copied,
null cells fall back to the loop defaults (1970/1/1 for date parts, the
`Occurrence::default()` zeros for coordinates), absent columns leave the
default-initialised zero fields untouched. -/
def rowOccurrence (df : DataFrame) (i : Nat) : Occurrence :=
  { decimal_latitude :=
      match df.decimalLatitude with
      | some c => (c.getD i none).getD 0
      | none => 0
    decimal_longitude :=
      match df.decimalLongitude with
      | some c => (c.getD i none).getD 0
      | none => 0
    year :=
      match df.year with
      | some c => (c.getD i none).getD 1970
      | none => 0
    month :=
      match df.month with
      | some c => (c.getD i none).getD 1
      | none => 0
    day :=
      match df.day with
      | some c => (c.getD i none).getD 1
      | none => 0
    time := 0 }

/-- Order-preserving filtering of `occs` by global index (counting from `k`):
keeps exactly the elements whose index is not in `s`.  The extensional
description of the sort/dedup/descending-removal idiom. -/
def keepFrom (s : List Nat) : Nat → List Occurrence → List Occurrence
  | _, [] => []
  | k, o :: rest =>
      if k ∈ s then keepFrom s (k + 1) rest else o :: keepFrom s (k + 1) rest

/-- Structural (index-free) form of one column pass: walks the occurrence list
and the column in lockstep. -/
def applyColumn {β : Type} (upd : Occurrence → β → Occurrence) (dflt : Option β) :
    List Occurrence → List (Option β) → List Occurrence
  | occs, [] => occs
  | [], _ :: _ => []
  | o :: os, some v :: rest => upd o v :: applyColumn upd dflt os rest
  | o :: os, none :: rest =>
      (match dflt with
       | some dv => upd o dv
       | none => o) :: applyColumn upd dflt os rest

/-- Effect of one column pass on a single occurrence, as a function of the
cell the column holds at its row (`none` = the row is beyond the column or the
column is absent). -/
def cellUpdate {β : Type} (upd : Occurrence → β → Occurrence) (dflt : Option β)
    (cell : Option (Option β)) (o : Occurrence) : Occurrence :=
  match cell with
  | some (some v) => upd o v
  | some none =>
      match dflt with
      | some dv => upd o dv
      | none => o
  | none => o

/-- Cell of an optionally-present column at row `i`. -/
def cellOf {β : Type} (col : Option (List (Option β))) (i : Nat) : Option (Option β) :=
  match col with
  | some cl => cl[i]?
  | none => none

/-- Modelled from the spec: the calendar successor of a (valid) Gregorian
date — next day, rolling over months and years. -/
def nextDate (y : Int) (m d : Nat) : Int × Nat × Nat :=
  if d < daysInMonth y m then (y, m, d + 1)
  else if m < 12 then (y, m + 1, 1)
  else (y + 1, 1, 1)

/-- Modelled from the spec: `lat_lon_to_xyz` of the external `rerun_earth`
crate (source not in this repository), per §4.5 — degrees to radians, then
standard spherical-to-Cartesian conversion on a sphere of the given radius.
Modelled over the reals; the claim's floating-point tolerance is subsumed by
exact equality. -/
noncomputable def lat_lon_to_xyz (latDeg lonDeg radius : ℝ) : ℝ × ℝ × ℝ :=
  let lat := latDeg * Real.pi / 180
  let lon := lonDeg * Real.pi / 180
  (radius * Real.cos lat * Real.cos lon,
   radius * Real.cos lat * Real.sin lon,
   radius * Real.sin lat)

/-- Ingestion failure: the CSV reader could not open or parse the file
(the source unwraps it, lines 32–33). -/
inductive IngestError : Type
  | ioError : IngestError

/-- Sink failure: connecting to or logging against the rerun visualization
process failed (the source `expect`s both, lines 114–116 and 156/177). -/
inductive SinkError : Type
  | connectFailed : SinkError
  | logFailed : SinkError

/-- `read_gbif_file` seen from `main`, with the CSV-reader unwraps made
explicit: an ingestion failure panics (`none`); a parsed frame is processed
by the total row pipeline. -/
def read_gbif_file_driver (input : Except IngestError DataFrame) :
    Option (List Occurrence) :=
  match input with
  | Except.error _ => none
  | Except.ok df => some (read_gbif_file df)

/-- The per-occurrence logging loop of `main`: one `rec.log("{base}{i}")`
call per record, aborting the run (`expect`) on the first sink error.  The
projection and timepoint computations of the loop body are pure value
computations with no failure path and are elided. -/
def logAll (logOp : String → Except SinkError Unit) (pathBase : String) :
    Nat → List Occurrence → Option Unit
  | _, [] => some ()
  | i, _ :: rest =>
      match logOp (pathBase ++ toString i) with
      | Except.error _ => none
      | Except.ok _ => logAll logOp pathBase (i + 1) rest

/-- The failure structure of `main`: ingest both files (unwrap), connect to
the sink (expect), then log every occurrence of both datasets (expect each).
`none` models a panic aborting the run.  The shapefile plotting of the
background layers is an external collaborator and is elided. -/
def main_model (tiger great : Except IngestError DataFrame)
    (connect : Except SinkError Unit)
    (logOp : String → Except SinkError Unit) : Option Unit :=
  match read_gbif_file_driver tiger with
  | none => none
  | some tigerOccs =>
    match read_gbif_file_driver great with
    | none => none
    | some greatOccs =>
      match connect with
      | Except.error _ => none
      | Except.ok _ =>
        match logAll logOp "tigershark/" 0 tigerOccs with
        | none => none
        | some _ => logAll logOp "greatwhiteshark/" 0 greatOccs

/-- Concrete frame for the end-to-end scenario of §8: five rows, row 2 with a
null `decimalLongitude`. -/
def dfC1 : DataFrame :=
  { decimalLatitude := some [some 10, some 11, some 12, some 13, some 14]
    decimalLongitude := some [some 20, some 21, none, some 23, some 24]
    year := some [some 2001, some 2002, some 2003, some 2004, some 2005]
    month := some [some 1, some 2, some 3, some 4, some 5]
    day := some [some 1, some 2, some 3, some 4, some 5]
    height := 5 }

/-- Concrete frame with one surviving row whose date triple (2024-13-01) is
not a valid calendar date. -/
def dfC2 : DataFrame :=
  { decimalLatitude := some [some 1]
    decimalLongitude := some [some 2]
    year := some [some 2024]
    month := some [some 13]
    day := some [some 1]
    height := 1 }

/-- Concrete frame with valid coordinates and all three date parts null. -/
def dfC4 : DataFrame :=
  { decimalLatitude := some [some 5]
    decimalLongitude := some [some 6]
    year := some [none]
    month := some [none]
    day := some [none]
    height := 1 }

/-- Concrete frame whose middle row is flagged twice — null latitude and null
longitude on the same row. -/
def dfC5 : DataFrame :=
  { decimalLatitude := some [some 1, none, some 3]
    decimalLongitude := some [some 4, none, some 6]
    year := none
    month := none
    day := none
    height := 3 }

/-- Concrete frame with all five recognised columns absent. -/
def dfC9 : DataFrame :=
  { decimalLatitude := none
    decimalLongitude := none
    year := none
    month := none
    day := none
    height := 2 }

/-! ### Supporting lemmas and the claim theorems -/

example : calc_epoch_time 2024 2 30 = -1 := by decide
example : calc_epoch_time 2024 2 29 = 1709164800 := by decide
example : calc_epoch_time 1970 1 1 = 0 := by decide
example : calc_epoch_time 2024 13 1 = -1 := by decide
example : calc_epoch_time (-1) 2 29 = -1 := by decide

theorem modifyAt_length {α : Type} (l : List α) (i : Nat) (f : α → α) :
    (modifyAt l i f).length = l.length := by
  induction l generalizing i with
  | nil => rfl
  | cons x xs ih => cases i with
    | zero => rfl
    | succ n => simp [modifyAt, ih]

theorem modifyAt_of_le {α : Type} (l : List α) (i : Nat) (f : α → α)
    (h : l.length ≤ i) : modifyAt l i f = l := by
  induction l generalizing i with
  | nil => rfl
  | cons x xs ih => cases i with
    | zero => simp at h
    | succ n =>
      simp only [List.length_cons] at h
      have hx : xs.length ≤ n := by omega
      simp [modifyAt, ih n hx]

theorem modifyAt_drop {α : Type} (l : List α) (i : Nat) (f : α → α) :
    (modifyAt l i f).drop (i + 1) = l.drop (i + 1) := by
  induction l generalizing i with
  | nil => rfl
  | cons x xs ih => cases i with
    | zero => rfl
    | succ n => simpa [modifyAt] using ih n

theorem modifyAt_take_succ {α : Type} (l : List α) (i : Nat) (f : α → α)
    (h : i < l.length) :
    (modifyAt l i f).take (i + 1) = l.take i ++ [f (l.get ⟨i, h⟩)] := by
  induction l generalizing i with
  | nil => simp at h
  | cons x xs ih => cases i with
    | zero => simp [modifyAt]
    | succ n =>
      simp only [List.length_cons] at h
      simp [modifyAt, List.take_succ_cons, ih n (by omega)]

theorem applyColumn_nil {β : Type} (upd : Occurrence → β → Occurrence)
    (dflt : Option β) (col : List (Option β)) :
    applyColumn upd dflt [] col = [] := by
  cases col with
  | nil => rfl
  | cons c rest => cases c <;> rfl

theorem colLoop_eq_flag {β : Type} (upd : Occurrence → β → Occurrence)
    (col : List (Option β)) :
    ∀ (k : Nat) (occs : List Occurrence) (inv : List Nat),
      colLoop upd none (occs, inv) k col =
        (occs.take k ++ applyColumn upd none (occs.drop k) col,
         inv ++ nullIndicesFrom k col) := by
  induction col with
  | nil => intro k occs inv; simp [colLoop, applyColumn, nullIndicesFrom]
  | cons c rest ih =>
    intro k occs inv
    by_cases hk : k < occs.length
    · have hdrop : occs.drop k = occs.get ⟨k, hk⟩ :: occs.drop (k + 1) :=
        List.drop_eq_get_cons hk
      cases c with
      | some v =>
        rw [show colLoop upd none (occs, inv) k (some v :: rest) =
              colLoop upd none (modifyAt occs k (fun o => upd o v), inv) (k + 1) rest from rfl]
        rw [ih]
        rw [modifyAt_take_succ occs k _ hk, modifyAt_drop]
        rw [hdrop]
        simp [applyColumn, nullIndicesFrom]
      | none =>
        rw [show colLoop upd none (occs, inv) k (none :: rest) =
              colLoop upd none (occs, inv ++ [k]) (k + 1) rest from rfl]
        rw [ih]
        have ht : occs.take (k + 1) = occs.take k ++ [occs[k]] := by
          rw [List.take_succ, List.getElem?_eq_getElem hk]
          rfl
        rw [ht, hdrop]
        simp only [applyColumn, nullIndicesFrom, List.append_assoc, List.singleton_append,
          List.cons_append, List.nil_append, Prod.mk.injEq, and_true, true_and,
          List.get_eq_getElem]
    · have hlen : occs.length ≤ k := by omega
      have htake : occs.take k = occs := List.take_of_length_le hlen
      have htake1 : occs.take (k + 1) = occs := List.take_of_length_le (by omega)
      have hdrop : occs.drop k = [] := List.drop_eq_nil_of_le hlen
      have hdrop1 : occs.drop (k + 1) = [] := List.drop_eq_nil_of_le (by omega)
      cases c with
      | some v =>
        rw [show colLoop upd none (occs, inv) k (some v :: rest) =
              colLoop upd none (modifyAt occs k (fun o => upd o v), inv) (k + 1) rest from rfl]
        rw [modifyAt_of_le occs k _ hlen, ih]
        simp [htake, htake1, hdrop, hdrop1, applyColumn_nil, nullIndicesFrom]
      | none =>
        rw [show colLoop upd none (occs, inv) k (none :: rest) =
              colLoop upd none (occs, inv ++ [k]) (k + 1) rest from rfl]
        rw [ih]
        simp [htake, htake1, hdrop, hdrop1, applyColumn_nil, nullIndicesFrom]

theorem colLoop_eq_default {β : Type} (upd : Occurrence → β → Occurrence) (dv : β)
    (col : List (Option β)) :
    ∀ (k : Nat) (occs : List Occurrence) (inv : List Nat),
      colLoop upd (some dv) (occs, inv) k col =
        (occs.take k ++ applyColumn upd (some dv) (occs.drop k) col, inv) := by
  induction col with
  | nil => intro k occs inv; simp [colLoop, applyColumn]
  | cons c rest ih =>
    intro k occs inv
    have hstep : ∀ g : Occurrence → Occurrence,
        (colLoop upd (some dv) (modifyAt occs k g, inv) (k + 1) rest =
          ((modifyAt occs k g).take (k + 1) ++
            applyColumn upd (some dv) ((modifyAt occs k g).drop (k + 1)) rest, inv)) := by
      intro g; rw [ih]
    by_cases hk : k < occs.length
    · have hdrop : occs.drop k = occs.get ⟨k, hk⟩ :: occs.drop (k + 1) :=
        List.drop_eq_get_cons hk
      cases c with
      | some v =>
        rw [show colLoop upd (some dv) (occs, inv) k (some v :: rest) =
              colLoop upd (some dv) (modifyAt occs k (fun o => upd o v), inv) (k + 1) rest from rfl]
        rw [hstep, modifyAt_take_succ occs k _ hk, modifyAt_drop, hdrop]
        simp [applyColumn]
      | none =>
        rw [show colLoop upd (some dv) (occs, inv) k (none :: rest) =
              colLoop upd (some dv) (modifyAt occs k (fun o => upd o dv), inv) (k + 1) rest from rfl]
        rw [hstep, modifyAt_take_succ occs k _ hk, modifyAt_drop, hdrop]
        simp [applyColumn]
    · have hlen : occs.length ≤ k := by omega
      have htake : occs.take k = occs := List.take_of_length_le hlen
      have htake1 : occs.take (k + 1) = occs := List.take_of_length_le (by omega)
      have hdrop : occs.drop k = [] := List.drop_eq_nil_of_le hlen
      have hdrop1 : occs.drop (k + 1) = [] := List.drop_eq_nil_of_le (by omega)
      cases c with
      | some v =>
        rw [show colLoop upd (some dv) (occs, inv) k (some v :: rest) =
              colLoop upd (some dv) (modifyAt occs k (fun o => upd o v), inv) (k + 1) rest from rfl]
        rw [modifyAt_of_le occs k _ hlen, ih]
        simp [htake, htake1, hdrop, hdrop1, applyColumn_nil]
      | none =>
        rw [show colLoop upd (some dv) (occs, inv) k (none :: rest) =
              colLoop upd (some dv) (modifyAt occs k (fun o => upd o dv), inv) (k + 1) rest from rfl]
        rw [modifyAt_of_le occs k _ hlen, ih]
        simp [htake, htake1, hdrop, hdrop1, applyColumn_nil]

theorem applyColumn_length {β : Type} (upd : Occurrence → β → Occurrence)
    (dflt : Option β) (occs : List Occurrence) (col : List (Option β)) :
    (applyColumn upd dflt occs col).length = occs.length := by
  induction occs generalizing col with
  | nil => rw [applyColumn_nil]
  | cons o os ih =>
    cases col with
    | nil => rfl
    | cons c cs => cases c <;> simp [applyColumn, ih]

theorem applyColumn_getElem? {β : Type} (upd : Occurrence → β → Occurrence)
    (dflt : Option β) (occs : List Occurrence) (col : List (Option β)) (i : Nat) :
    (applyColumn upd dflt occs col)[i]? = (occs[i]?).map (cellUpdate upd dflt col[i]?) := by
  induction occs generalizing col i with
  | nil => rw [applyColumn_nil]; simp
  | cons o os ih =>
    cases col with
    | nil =>
      cases h : (o :: os)[i]? <;> simp [applyColumn, cellUpdate, h]
    | cons c cs =>
      cases i with
      | zero => cases c <;> simp [applyColumn, cellUpdate]
      | succ n => cases c <;> simp [applyColumn, ih]

theorem colPass_fst {β : Type} (upd : Occurrence → β → Occurrence) (dflt : Option β)
    (st : List Occurrence × List Nat) (col : Option (List (Option β))) :
    (colPass upd dflt st col).1 =
      match col with
      | some c => applyColumn upd dflt st.1 c
      | none => st.1 := by
  obtain ⟨occs, inv⟩ := st
  cases col with
  | none => rfl
  | some c =>
    cases dflt with
    | none => simp [colPass, colLoop_eq_flag]
    | some dv => simp [colPass, colLoop_eq_default]

theorem colPass_snd_flag {β : Type} (upd : Occurrence → β → Occurrence)
    (st : List Occurrence × List Nat) (col : Option (List (Option β))) :
    (colPass upd none st col).2 =
      st.2 ++ (match col with
               | some c => nullIndicesFrom 0 c
               | none => []) := by
  obtain ⟨occs, inv⟩ := st
  cases col with
  | none => simp [colPass]
  | some c => simp [colPass, colLoop_eq_flag]

theorem colPass_snd_default {β : Type} (upd : Occurrence → β → Occurrence) (dv : β)
    (st : List Occurrence × List Nat) (col : Option (List (Option β))) :
    (colPass upd (some dv) st col).2 = st.2 := by
  obtain ⟨occs, inv⟩ := st
  cases col with
  | none => rfl
  | some c => simp [colPass, colLoop_eq_default]

theorem colPass_fst_length {β : Type} (upd : Occurrence → β → Occurrence)
    (dflt : Option β) (st : List Occurrence × List Nat) (col : Option (List (Option β))) :
    (colPass upd dflt st col).1.length = st.1.length := by
  rw [colPass_fst]
  cases col with
  | none => rfl
  | some c => simp [applyColumn_length]

theorem colPass_fst_getElem? {β : Type} (upd : Occurrence → β → Occurrence)
    (dflt : Option β) (st : List Occurrence × List Nat) (col : Option (List (Option β)))
    (i : Nat) :
    (colPass upd dflt st col).1[i]? = (st.1[i]?).map (cellUpdate upd dflt (cellOf col i)) := by
  rw [colPass_fst]
  cases col with
  | none => cases h : st.1[i]? <;> simp [cellOf, cellUpdate, h]
  | some c => simp [applyColumn_getElem?, cellOf]

theorem materializeState_snd (df : DataFrame) :
    (materializeState df).2 = flaggedIndices df := by
  unfold materializeState
  rw [colPass_snd_default, colPass_snd_default, colPass_snd_default,
    colPass_snd_flag, colPass_snd_flag]
  unfold flaggedIndices
  simp only [List.nil_append]
  cases df.decimalLatitude <;> cases df.decimalLongitude <;> rfl

theorem materializeState_fst_length (df : DataFrame) :
    (materializeState df).1.length = df.height := by
  unfold materializeState
  rw [colPass_fst_length, colPass_fst_length, colPass_fst_length,
    colPass_fst_length, colPass_fst_length]
  simp

theorem materializeState_fst_getElem? (df : DataFrame) (i : Nat) :
    (materializeState df).1[i]? =
      ((List.replicate df.height (default : Occurrence))[i]?).map (fun o =>
        cellUpdate updDay (some 1) (cellOf df.day i)
          (cellUpdate updMonth (some 1) (cellOf df.month i)
            (cellUpdate updYear (some 1970) (cellOf df.year i)
              (cellUpdate updLon none (cellOf df.decimalLongitude i)
                (cellUpdate updLat none (cellOf df.decimalLatitude i) o))))) := by
  unfold materializeState
  rw [colPass_fst_getElem?, colPass_fst_getElem?, colPass_fst_getElem?,
    colPass_fst_getElem?, colPass_fst_getElem?]
  cases h : (List.replicate df.height (default : Occurrence))[i]? <;> simp [h]

theorem cellUpdate_proj {β γ : Type} (upd : Occurrence → β → Occurrence) (dflt : Option β)
    (cell : Option (Option β)) (g : Occurrence → γ)
    (hg : ∀ o v, g (upd o v) = g o) (o : Occurrence) :
    g (cellUpdate upd dflt cell o) = g o := by
  rcases cell with _ | (_ | v)
  · rfl
  · cases dflt with
    | none => rfl
    | some dv => exact hg o dv
  · exact hg o v

theorem cellUpdate_updLat_lat (cell : Option (Option F64)) (o : Occurrence) :
    (cellUpdate updLat none cell o).decimal_latitude =
      (match cell with
       | some (some v) => v
       | _ => o.decimal_latitude) := by
  rcases cell with _ | (_ | v) <;> rfl

theorem cellUpdate_updLon_lon (cell : Option (Option F64)) (o : Occurrence) :
    (cellUpdate updLon none cell o).decimal_longitude =
      (match cell with
       | some (some v) => v
       | _ => o.decimal_longitude) := by
  rcases cell with _ | (_ | v) <;> rfl

theorem cellUpdate_updYear_year (cell : Option (Option Int)) (o : Occurrence) :
    (cellUpdate updYear (some 1970) cell o).year =
      (match cell with
       | some (some v) => v
       | some none => 1970
       | none => o.year) := by
  rcases cell with _ | (_ | v) <;> rfl

theorem cellUpdate_updMonth_month (cell : Option (Option Int)) (o : Occurrence) :
    (cellUpdate updMonth (some 1) cell o).month =
      (match cell with
       | some (some v) => v
       | some none => 1
       | none => o.month) := by
  rcases cell with _ | (_ | v) <;> rfl

theorem cellUpdate_updDay_day (cell : Option (Option Int)) (o : Occurrence) :
    (cellUpdate updDay (some 1) cell o).day =
      (match cell with
       | some (some v) => v
       | some none => 1
       | none => o.day) := by
  rcases cell with _ | (_ | v) <;> rfl

theorem optColumn_cell {γ : Type} (cl : List (Option γ)) (i : Nat) (h : i < cl.length) :
    cl[i]? = some (cl.getD i none) := by
  rw [List.getElem?_eq_getElem h]
  rw [List.getD_eq_getElem?_getD, List.getElem?_eq_getElem h]
  rfl

theorem Occurrence_default_eq : (default : Occurrence) = ⟨0, 0, 0, 0, 0, 0⟩ := rfl

theorem cellUpdate_cell_none {β : Type} (upd : Occurrence → β → Occurrence)
    (dflt : Option β) (o : Occurrence) :
    cellUpdate upd dflt (none : Option (Option β)) o = o := rfl

theorem cellUpdate_cell_some {β : Type} (upd : Occurrence → β → Occurrence)
    (dflt : Option β) (v : β) (o : Occurrence) :
    cellUpdate upd dflt (some (some v)) o = upd o v := rfl

theorem cellUpdate_cell_null_flag {β : Type} (upd : Occurrence → β → Occurrence)
    (o : Occurrence) :
    cellUpdate upd (none : Option β) (some none) o = o := rfl

theorem cellUpdate_cell_null_default {β : Type} (upd : Occurrence → β → Occurrence)
    (dv : β) (o : Occurrence) :
    cellUpdate upd (some dv) (some none) o = upd o dv := rfl

theorem materializeState_row (df : DataFrame) (i : Nat) (hi : i < df.height)
    (hla : ∀ cl, df.decimalLatitude = some cl → cl.length = df.height)
    (hlo : ∀ cl, df.decimalLongitude = some cl → cl.length = df.height)
    (hyr : ∀ cl, df.year = some cl → cl.length = df.height)
    (hmo : ∀ cl, df.month = some cl → cl.length = df.height)
    (hda : ∀ cl, df.day = some cl → cl.length = df.height) :
    (materializeState df).1[i]? = some (rowOccurrence df i) := by
  rw [materializeState_fst_getElem?]
  have hrep : (List.replicate df.height (default : Occurrence))[i]? = some default := by
    rw [List.getElem?_replicate, if_pos hi]
  rw [hrep, Option.map_some']
  congr 1
  have hcellLat : cellOf df.decimalLatitude i = (df.decimalLatitude).map (fun cl => cl.getD i none) := by
    rcases hA : df.decimalLatitude with _ | cl
    · rfl
    · simpa [cellOf] using optColumn_cell cl i (by rw [hla cl hA]; exact hi)
  have hcellLon : cellOf df.decimalLongitude i = (df.decimalLongitude).map (fun cl => cl.getD i none) := by
    rcases hB : df.decimalLongitude with _ | cl
    · rfl
    · simpa [cellOf] using optColumn_cell cl i (by rw [hlo cl hB]; exact hi)
  have hcellYear : cellOf df.year i = (df.year).map (fun cl => cl.getD i none) := by
    rcases hC : df.year with _ | cl
    · rfl
    · simpa [cellOf] using optColumn_cell cl i (by rw [hyr cl hC]; exact hi)
  have hcellMonth : cellOf df.month i = (df.month).map (fun cl => cl.getD i none) := by
    rcases hD : df.month with _ | cl
    · rfl
    · simpa [cellOf] using optColumn_cell cl i (by rw [hmo cl hD]; exact hi)
  have hcellDay : cellOf df.day i = (df.day).map (fun cl => cl.getD i none) := by
    rcases hE : df.day with _ | cl
    · rfl
    · simpa [cellOf] using optColumn_cell cl i (by rw [hda cl hE]; exact hi)
  rw [hcellLat, hcellLon, hcellYear, hcellMonth, hcellDay]
  unfold rowOccurrence
  rcases df.decimalLatitude with _ | latc <;>
    rcases df.decimalLongitude with _ | lonc <;>
      rcases df.year with _ | yc <;>
        rcases df.month with _ | mc <;>
          rcases df.day with _ | dc
  all_goals simp only [Option.map_some', Option.map_none', cellUpdate_cell_none]
  all_goals try rcases latc.getD i none with _ | lv
  all_goals try rcases lonc.getD i none with _ | wv
  all_goals try rcases yc.getD i none with _ | yv
  all_goals try rcases mc.getD i none with _ | mv
  all_goals try rcases dc.getD i none with _ | dv
  all_goals rfl

theorem materializeState_fst_eq (df : DataFrame)
    (hla : ∀ cl, df.decimalLatitude = some cl → cl.length = df.height)
    (hlo : ∀ cl, df.decimalLongitude = some cl → cl.length = df.height)
    (hyr : ∀ cl, df.year = some cl → cl.length = df.height)
    (hmo : ∀ cl, df.month = some cl → cl.length = df.height)
    (hda : ∀ cl, df.day = some cl → cl.length = df.height) :
    (materializeState df).1 = (List.range df.height).map (rowOccurrence df) := by
  apply List.ext_getElem?
  intro i
  by_cases hi : i < df.height
  · rw [materializeState_row df i hi hla hlo hyr hmo hda]
    rw [List.getElem?_map, List.getElem?_range hi]
    rfl
  · have h1 : (materializeState df).1[i]? = none := by
      rw [List.getElem?_eq_none]
      rw [materializeState_fst_length]
      omega
    have h2 : ((List.range df.height).map (rowOccurrence df))[i]? = none := by
      rw [List.getElem?_eq_none]
      simp only [List.length_map, List.length_range]
      omega
    rw [h1, h2]

theorem mem_insertSorted (x : Nat) (l : List Nat) :
    ∀ a, a ∈ insertSorted x l ↔ a = x ∨ a ∈ l := by
  induction l with
  | nil => intro a; simp [insertSorted]
  | cons y ys ih =>
    intro a
    by_cases h : x ≤ y
    · simp [insertSorted, h]
    · simp only [insertSorted, if_neg h, List.mem_cons, ih a]
      tauto

theorem pairwise_insertSorted (x : Nat) (l : List Nat)
    (h : l.Pairwise (· ≤ ·)) : (insertSorted x l).Pairwise (· ≤ ·) := by
  induction l with
  | nil => simp [insertSorted]
  | cons y ys ih =>
    rcases List.pairwise_cons.mp h with ⟨hy, hys⟩
    by_cases hxy : x ≤ y
    · rw [show insertSorted x (y :: ys) = x :: y :: ys from by simp [insertSorted, hxy]]
      refine List.pairwise_cons.mpr ⟨?_, h⟩
      intro b hb
      rcases List.mem_cons.mp hb with rfl | hbys
      · exact hxy
      · exact le_trans hxy (hy b hbys)
    · rw [show insertSorted x (y :: ys) = y :: insertSorted x ys from by simp [insertSorted, hxy]]
      refine List.pairwise_cons.mpr ⟨?_, ih hys⟩
      intro b hb
      rcases (mem_insertSorted x ys b).mp hb with rfl | hbys
      · omega
      · exact hy b hbys

theorem sortNat_pairwise (l : List Nat) : (sortNat l).Pairwise (· ≤ ·) := by
  induction l with
  | nil => exact List.Pairwise.nil
  | cons x xs ih => exact pairwise_insertSorted x (sortNat xs) ih

theorem mem_sortNat (l : List Nat) : ∀ a, a ∈ sortNat l ↔ a ∈ l := by
  induction l with
  | nil => intro a; simp [sortNat]
  | cons x xs ih =>
    intro a
    rw [show sortNat (x :: xs) = insertSorted x (sortNat xs) from rfl]
    rw [mem_insertSorted, ih a]
    simp

theorem mem_dedupConsec : ∀ (l : List Nat) (a : Nat), a ∈ dedupConsec l ↔ a ∈ l := by
  intro l
  induction l with
  | nil => intro a; simp [dedupConsec]
  | cons x xs ih =>
    cases xs with
    | nil => intro a; simp [dedupConsec]
    | cons y ys =>
      intro a
      by_cases hxy : x = y
      · rw [show dedupConsec (x :: y :: ys) = dedupConsec (y :: ys) from by
          simp [dedupConsec, hxy]]
        rw [ih a]
        subst hxy
        simp only [List.mem_cons]
        tauto
      · rw [show dedupConsec (x :: y :: ys) = x :: dedupConsec (y :: ys) from by
          simp [dedupConsec, hxy]]
        simp [List.mem_cons, ih a]

theorem pairwise_lt_dedupConsec : ∀ l : List Nat,
    l.Pairwise (· ≤ ·) → (dedupConsec l).Pairwise (· < ·) := by
  intro l
  induction l with
  | nil => intro _; exact List.Pairwise.nil
  | cons x xs ih =>
    cases xs with
    | nil => intro _; simp [dedupConsec]
    | cons y ys =>
      intro h
      rcases List.pairwise_cons.mp h with ⟨hx, hrest⟩
      by_cases hxy : x = y
      · rw [show dedupConsec (x :: y :: ys) = dedupConsec (y :: ys) from by
          simp [dedupConsec, hxy]]
        exact ih hrest
      · rw [show dedupConsec (x :: y :: ys) = x :: dedupConsec (y :: ys) from by
          simp [dedupConsec, hxy]]
        refine List.pairwise_cons.mpr ⟨?_, ih hrest⟩
        intro b hb
        have hb' : b ∈ y :: ys := (mem_dedupConsec _ b).mp hb
        have hxb : x ≤ b := hx b hb'
        rcases List.mem_cons.mp hb' with rfl | hbys
        · omega
        · have h1 : y ≤ b := (List.pairwise_cons.mp hrest).1 b hbys
          have h2 : x ≤ y := hx y (List.mem_cons_self y ys)
          omega

theorem keepFrom_nil : ∀ (occs : List Occurrence) (k : Nat), keepFrom [] k occs = occs := by
  intro occs
  induction occs with
  | nil => intro k; rfl
  | cons o os ih => intro k; simp [keepFrom, ih]

theorem keepFrom_irrel (i : Nat) (rest : List Nat) :
    ∀ (occs : List Occurrence) (k : Nat), i < k →
      keepFrom (i :: rest) k occs = keepFrom rest k occs := by
  intro occs
  induction occs with
  | nil => intro k _; rfl
  | cons o os ih =>
    intro k hik
    have hne : ¬(k = i) := by omega
    by_cases hk : k ∈ rest
    · simp only [keepFrom]
      rw [if_pos (List.mem_cons.mpr (Or.inr hk)), if_pos hk, ih (k + 1) (by omega)]
    · simp only [keepFrom]
      rw [if_neg (by simp [List.mem_cons, hne, hk]), if_neg hk, ih (k + 1) (by omega)]

theorem keepFrom_erase (i : Nat) (rest : List Nat) :
    ∀ (occs : List Occurrence) (k : Nat), (∀ j ∈ rest, i < j) → k ≤ i →
      (keepFrom rest k occs).eraseIdx (i - k) = keepFrom (i :: rest) k occs := by
  intro occs
  induction occs with
  | nil => intro k _ _; rfl
  | cons o os ih =>
    intro k hrest hki
    have hknr : ¬(k ∈ rest) := fun hk => by have := hrest k hk; omega
    by_cases hik : k = i
    · subst hik
      simp only [keepFrom]
      rw [if_neg hknr, if_pos (List.mem_cons_self k rest)]
      rw [Nat.sub_self]
      rw [show (o :: keepFrom rest (k + 1) os).eraseIdx 0 = keepFrom rest (k + 1) os from rfl]
      exact (keepFrom_irrel k rest os (k + 1) (by omega)).symm
    · simp only [keepFrom]
      rw [if_neg hknr, if_neg (by simp [List.mem_cons, hknr]; omega)]
      have hspl : i - k = (i - (k + 1)) + 1 := by omega
      rw [hspl]
      rw [show (o :: keepFrom rest (k + 1) os).eraseIdx ((i - (k + 1)) + 1)
            = o :: (keepFrom rest (k + 1) os).eraseIdx (i - (k + 1)) from rfl]
      rw [ih (k + 1) hrest (by omega)]

theorem removeInvalid_eq_keepFrom (occs : List Occurrence) :
    ∀ asc : List Nat, asc.Pairwise (· < ·) →
      removeInvalid occs asc = keepFrom asc 0 occs := by
  intro asc
  induction asc with
  | nil => intro _; exact keepFrom_nil occs 0 |>.symm ▸ rfl
  | cons i rest ih =>
    intro h
    rcases List.pairwise_cons.mp h with ⟨hi, hrest⟩
    rw [show removeInvalid occs (i :: rest) = (removeInvalid occs rest).eraseIdx i from rfl]
    rw [ih hrest]
    have := keepFrom_erase i rest occs 0 hi (Nat.zero_le i)
    simpa using this

theorem keepFrom_congr (s s' : List Nat) (h : ∀ j, j ∈ s ↔ j ∈ s') :
    ∀ (occs : List Occurrence) (k : Nat), keepFrom s k occs = keepFrom s' k occs := by
  intro occs
  induction occs with
  | nil => intro k; rfl
  | cons o os ih =>
    intro k
    by_cases hk : k ∈ s
    · simp only [keepFrom]
      rw [if_pos hk, if_pos ((h k).mp hk), ih (k + 1)]
    · simp only [keepFrom]
      rw [if_neg hk, if_neg (fun hx => hk ((h k).mpr hx)), ih (k + 1)]

/-- Master characterization of `read_gbif_file`: populate each row from its
cells, keep exactly the rows whose index was never flagged, in order, then
apply the epoch pass. -/
theorem read_gbif_file_eq_keepFrom (df : DataFrame)
    (hla : ∀ cl, df.decimalLatitude = some cl → cl.length = df.height)
    (hlo : ∀ cl, df.decimalLongitude = some cl → cl.length = df.height)
    (hyr : ∀ cl, df.year = some cl → cl.length = df.height)
    (hmo : ∀ cl, df.month = some cl → cl.length = df.height)
    (hda : ∀ cl, df.day = some cl → cl.length = df.height) :
    read_gbif_file df =
      epochPass (keepFrom (flaggedIndices df) 0
        ((List.range df.height).map (rowOccurrence df))) := by
  show epochPass (removeInvalid (materializeState df).1
      (dedupConsec (sortNat (materializeState df).2))) = _
  rw [materializeState_snd, materializeState_fst_eq df hla hlo hyr hmo hda]
  rw [removeInvalid_eq_keepFrom _ _
    (pairwise_lt_dedupConsec _ (sortNat_pairwise _))]
  congr 1
  exact keepFrom_congr _ _
    (fun j => by rw [mem_dedupConsec, mem_sortNat]) _ _

theorem keepFrom_eq_enumFrom_filter (s : List Nat) :
    ∀ (occs : List Occurrence) (k : Nat),
      keepFrom s k occs =
        ((occs.enumFrom k).filter (fun p => decide (¬ p.1 ∈ s))).map Prod.snd := by
  intro occs
  induction occs with
  | nil => intro k; rfl
  | cons o os ih =>
    intro k
    rw [show (o :: os).enumFrom k = (k, o) :: os.enumFrom (k + 1) from rfl]
    by_cases hk : k ∈ s
    · simp [keepFrom, hk, List.filter_cons, ih (k + 1)]
    · simp [keepFrom, hk, List.filter_cons, ih (k + 1)]

theorem keepFrom_map_range' (s : List Nat) (f : Nat → Occurrence) :
    ∀ (n k : Nat),
      keepFrom s k ((List.range' k n).map f) =
        ((List.range' k n).filter (fun j => decide (¬ j ∈ s))).map f := by
  intro n
  induction n with
  | zero => intro k; rfl
  | succ n ih =>
    intro k
    rw [show List.range' k (n + 1) = k :: List.range' (k + 1) n from rfl]
    by_cases hk : k ∈ s
    · simp [keepFrom, hk, List.filter_cons, ih (k + 1)]
    · simp [keepFrom, hk, List.filter_cons, ih (k + 1)]

theorem mem_of_mem_keepFrom (s : List Nat) :
    ∀ (occs : List Occurrence) (k : Nat) (o : Occurrence),
      o ∈ keepFrom s k occs → o ∈ occs := by
  intro occs
  induction occs with
  | nil => intro k o h; exact absurd h (List.not_mem_nil o)
  | cons x xs ih =>
    intro k o h
    by_cases hk : k ∈ s
    · rw [keepFrom, if_pos hk] at h
      exact List.mem_cons.mpr (Or.inr (ih (k + 1) o h))
    · rw [keepFrom, if_neg hk] at h
      rcases List.mem_cons.mp h with rfl | h'
      · exact List.mem_cons_self o xs
      · exact List.mem_cons.mpr (Or.inr (ih (k + 1) o h'))

theorem getElem_mem_keepFrom (s : List Nat) :
    ∀ (occs : List Occurrence) (k j : Nat) (h : j < occs.length),
      ¬((k + j) ∈ s) → occs[j] ∈ keepFrom s k occs := by
  intro occs
  induction occs with
  | nil => intro k j h; simp at h
  | cons x xs ih =>
    intro k j h hj
    cases j with
    | zero =>
      have hk : ¬(k ∈ s) := by simpa using hj
      rw [keepFrom, if_neg hk]
      exact List.mem_cons_self x _
    | succ n =>
      have hn : n < xs.length := by simpa using h
      have hshift : ¬((k + 1) + n ∈ s) := by
        have : (k + 1) + n = k + (n + 1) := by omega
        rw [this]; exact hj
      have hmem := ih (k + 1) n hn hshift
      rw [show (x :: xs)[n + 1] = xs[n] from rfl]
      by_cases hk : k ∈ s
      · rw [keepFrom, if_pos hk]; exact hmem
      · rw [keepFrom, if_neg hk]; exact List.mem_cons.mpr (Or.inr hmem)

theorem mem_nullIndicesFrom {β : Type} :
    ∀ (col : List (Option β)) (k a : Nat),
      a ∈ nullIndicesFrom k col ↔ (k ≤ a ∧ col[a - k]? = some none) := by
  intro col
  induction col with
  | nil => intro k a; simp [nullIndicesFrom]
  | cons cell rest ih =>
    intro k a
    cases cell with
    | some v =>
      rw [show nullIndicesFrom k (some v :: rest) = nullIndicesFrom (k + 1) rest from rfl]
      rw [ih (k + 1) a]
      constructor
      · rintro ⟨h1, h2⟩
        refine ⟨by omega, ?_⟩
        rw [show a - k = (a - (k + 1)) + 1 by omega]
        simpa using h2
      · rintro ⟨h1, h2⟩
        by_cases hak : a = k
        · subst hak
          rw [Nat.sub_self] at h2
          simp at h2
        · refine ⟨by omega, ?_⟩
          rw [show a - k = (a - (k + 1)) + 1 by omega] at h2
          simpa using h2
    | none =>
      rw [show nullIndicesFrom k (none :: rest) = k :: nullIndicesFrom (k + 1) rest from rfl]
      rw [List.mem_cons, ih (k + 1) a]
      constructor
      · rintro (rfl | ⟨h1, h2⟩)
        · exact ⟨le_refl a, by rw [Nat.sub_self]; simp⟩
        · refine ⟨by omega, ?_⟩
          rw [show a - k = (a - (k + 1)) + 1 by omega]
          simpa using h2
      · rintro ⟨h1, h2⟩
        by_cases hak : a = k
        · exact Or.inl hak
        · refine Or.inr ⟨by omega, ?_⟩
          rw [show a - k = (a - (k + 1)) + 1 by omega] at h2
          simpa using h2

theorem epochPass_time_mem (l : List Occurrence) (o : Occurrence) (h : o ∈ epochPass l) :
    o.time = asU64 (calc_epoch_time o.year o.month o.day) := by
  rcases List.mem_map.mp h with ⟨o', _, rfl⟩
  rfl

theorem eraseIdx_map {α γ : Type} (f : α → γ) :
    ∀ (l : List α) (i : Nat), (l.map f).eraseIdx i = (l.eraseIdx i).map f := by
  intro l
  induction l with
  | nil => intro i; rfl
  | cons x xs ih =>
    intro i
    cases i with
    | zero => rfl
    | succ n => simp only [List.map_cons, List.eraseIdx_cons_succ, ih n, List.map_cons]

theorem removeInvalid_map {α γ : Type} (f : α → γ) (l : List α) :
    ∀ s : List Nat, removeInvalid (l.map f) s = (removeInvalid l s).map f := by
  intro s
  induction s with
  | nil => rfl
  | cons i rest ih =>
    rw [show removeInvalid (l.map f) (i :: rest)
          = (removeInvalid (l.map f) rest).eraseIdx i from rfl]
    rw [ih, eraseIdx_map]
    rfl

theorem asI32_eq_self (y : Int) (h1 : -(2 ^ 31) ≤ y) (h2 : y < 2 ^ 31) : asI32 y = y := by
  unfold asI32
  omega

theorem asI32_idem (y : Int) : asI32 (asI32 y) = asI32 y := by
  unfold asI32
  omega

theorem asU32_eq_toNat (m : Int) (h1 : 0 ≤ m) (h2 : m < 2 ^ 32) : asU32 m = m.toNat := by
  unfold asU32
  omega

theorem asU32_cast_idem (m : Int) : asU32 ((asU32 m : Nat) : Int) = asU32 m := by
  unfold asU32
  omega

theorem andHmsOpt_midnight (date : Int × Nat × Nat) :
    andHmsOpt date 0 0 0 = some (date, 0) := by
  unfold andHmsOpt
  rw [if_pos]
  exact ⟨by omega, by omega, by omega⟩

theorem daysInMonth_le (y : Int) (m : Nat) : daysInMonth y m ≤ 31 := by
  unfold daysInMonth
  split <;> first
  | omega
  | (split <;> omega)

theorem calc_epoch_time_checked_total (y m d : Int) :
    calc_epoch_time_checked y m d = some (calc_epoch_time y m d) := by
  unfold calc_epoch_time calc_epoch_time_checked
  cases h : fromYmdOpt (asI32 y) (asU32 m) (asU32 d) with
  | none => rfl
  | some date => simp [andHmsOpt_midnight]

theorem calc_epoch_time_cast_stable (y m d : Int) :
    calc_epoch_time y m d =
      calc_epoch_time (asI32 y) ((asU32 m : Nat) : Int) ((asU32 d : Nat) : Int) := by
  unfold calc_epoch_time calc_epoch_time_checked
  rw [asI32_idem, asU32_cast_idem, asU32_cast_idem]

theorem chrono_year_in_i32 (y : Int) (h1 : chronoMinYear ≤ y) (h2 : y ≤ chronoMaxYear) :
    asI32 y = y := by
  refine asI32_eq_self y ?_ ?_
  · unfold chronoMinYear at h1; omega
  · unfold chronoMaxYear at h2; omega

theorem calc_epoch_time_valid (y m d : Int)
    (hy1 : chronoMinYear ≤ y) (hy2 : y ≤ chronoMaxYear)
    (hm1 : 1 ≤ m) (hm2 : m ≤ 12)
    (hd1 : 1 ≤ d) (hd2 : d ≤ (daysInMonth y m.toNat : Int)) :
    calc_epoch_time y m d = 86400 * daysFromCivil y m.toNat d.toNat := by
  unfold calc_epoch_time calc_epoch_time_checked
  have hdm : (daysInMonth y m.toNat : Int) ≤ 31 := by
    have := daysInMonth_le y m.toNat
    omega
  rw [chrono_year_in_i32 y hy1 hy2,
    asU32_eq_toNat m (by omega) (by omega),
    asU32_eq_toNat d (by omega) (by omega)]
  unfold fromYmdOpt
  rw [if_pos ⟨hy1, hy2, by omega, by omega, by omega, by omega⟩]
  simp [andHmsOpt_midnight, timestampOf]
  ring

theorem calc_epoch_time_invalid (y m d : Int)
    (hy1 : chronoMinYear ≤ y) (hy2 : y ≤ chronoMaxYear)
    (hm1 : 0 ≤ m) (hm2 : m < 2 ^ 32)
    (hd1 : 0 ≤ d) (hd2 : d < 2 ^ 32)
    (hinval : ¬(1 ≤ m ∧ m ≤ 12 ∧ 1 ≤ d ∧ d ≤ (daysInMonth y m.toNat : Int))) :
    calc_epoch_time y m d = -1 := by
  unfold calc_epoch_time calc_epoch_time_checked
  rw [chrono_year_in_i32 y hy1 hy2, asU32_eq_toNat m hm1 hm2, asU32_eq_toNat d hd1 hd2]
  unfold fromYmdOpt
  rw [if_neg]
  · rfl
  · rintro ⟨h1, h2, h3, h4, h5, h6⟩
    exact hinval ⟨by omega, by omega, by omega, by omega⟩

theorem isLeapYear_true_iff (y : Int) :
    isLeapYear y = true ↔ (y % 4 = 0 ∧ (y % 100 ≠ 0 ∨ y % 400 = 0)) := by
  unfold isLeapYear
  simp [Bool.and_eq_true, Bool.or_eq_true, beq_iff_eq, bne_iff_ne]

theorem isLeapYear_false_iff (y : Int) :
    isLeapYear y = false ↔ ¬(y % 4 = 0 ∧ (y % 100 ≠ 0 ∨ y % 400 = 0)) := by
  rw [← isLeapYear_true_iff]
  cases isLeapYear y <;> simp

theorem daysFromCivil_epoch : daysFromCivil 1970 1 1 = 0 := by decide

theorem dfc_succ_m1 (y : Int) :
    daysFromCivil y 2 1 = daysFromCivil y 1 31 + 1 := by
  simp only [daysFromCivil]
  norm_num
  omega

theorem dfc_succ_m3 (y : Int) :
    daysFromCivil y 4 1 = daysFromCivil y 3 31 + 1 := by
  simp only [daysFromCivil]
  norm_num
  omega

theorem dfc_succ_m4 (y : Int) :
    daysFromCivil y 5 1 = daysFromCivil y 4 30 + 1 := by
  simp only [daysFromCivil]
  norm_num
  omega

theorem dfc_succ_m5 (y : Int) :
    daysFromCivil y 6 1 = daysFromCivil y 5 31 + 1 := by
  simp only [daysFromCivil]
  norm_num
  omega

theorem dfc_succ_m6 (y : Int) :
    daysFromCivil y 7 1 = daysFromCivil y 6 30 + 1 := by
  simp only [daysFromCivil]
  norm_num
  omega

theorem dfc_succ_m7 (y : Int) :
    daysFromCivil y 8 1 = daysFromCivil y 7 31 + 1 := by
  simp only [daysFromCivil]
  norm_num
  omega

theorem dfc_succ_m8 (y : Int) :
    daysFromCivil y 9 1 = daysFromCivil y 8 31 + 1 := by
  simp only [daysFromCivil]
  norm_num
  omega

theorem dfc_succ_m9 (y : Int) :
    daysFromCivil y 10 1 = daysFromCivil y 9 30 + 1 := by
  simp only [daysFromCivil]
  norm_num
  omega

theorem dfc_succ_m10 (y : Int) :
    daysFromCivil y 11 1 = daysFromCivil y 10 31 + 1 := by
  simp only [daysFromCivil]
  norm_num
  omega

theorem dfc_succ_m11 (y : Int) :
    daysFromCivil y 12 1 = daysFromCivil y 11 30 + 1 := by
  simp only [daysFromCivil]
  norm_num
  omega

theorem dfc_succ_m12 (y : Int) :
    daysFromCivil (y + 1) 1 1 = daysFromCivil y 12 31 + 1 := by
  simp only [daysFromCivil]
  norm_num
  omega

/-- February rollover: the day after the last of February is March 1st,
with the leap rule deciding whether that last day is the 28th or 29th. -/
theorem dfc_succ_feb (y : Int) :
    daysFromCivil (nextDate y 2 (daysInMonth y 2)).1 (nextDate y 2 (daysInMonth y 2)).2.1
      (nextDate y 2 (daysInMonth y 2)).2.2 = daysFromCivil y 2 (daysInMonth y 2) + 1 := by
  cases hL : isLeapYear y
  · have hprops := (isLeapYear_false_iff y).mp hL
    simp [nextDate, daysInMonth, daysFromCivil, hL]
    omega
  · have hprops := (isLeapYear_true_iff y).mp hL
    simp [nextDate, daysInMonth, daysFromCivil, hL]
    omega

/-- The day-offset function advances by exactly one along calendar
succession: together with `daysFromCivil_epoch` this pins `daysFromCivil`
down as the day count since 1970-01-01 over the proleptic Gregorian
calendar. -/
theorem daysFromCivil_succ (y : Int) (m d : Nat)
    (hm1 : 1 <= m) (hm2 : m <= 12) (hd1 : 1 <= d) (hd2 : d <= daysInMonth y m) :
    daysFromCivil (nextDate y m d).1 (nextDate y m d).2.1 (nextDate y m d).2.2 =
      daysFromCivil y m d + 1 := by
  by_cases hlt : d < daysInMonth y m
  · rw [show nextDate y m d = (y, m, d + 1) from by unfold nextDate; rw [if_pos hlt]]
    by_cases hm' : m <= 2
    · have hm'' : Not (2 < m) := by omega
      simp only [daysFromCivil, if_pos hm', if_neg hm'']
      push_cast
      omega
    · have hm'' : 2 < m := by omega
      simp only [daysFromCivil, if_neg hm', if_pos hm'']
      push_cast
      omega
  · have hd' : d = daysInMonth y m := by omega
    subst hd'
    clear hlt hd1 hd2
    interval_cases m
    · exact dfc_succ_m1 y
    · exact dfc_succ_feb y
    · exact dfc_succ_m3 y
    · exact dfc_succ_m4 y
    · exact dfc_succ_m5 y
    · exact dfc_succ_m6 y
    · exact dfc_succ_m7 y
    · exact dfc_succ_m8 y
    · exact dfc_succ_m9 y
    · exact dfc_succ_m10 y
    · exact dfc_succ_m11 y
    · exact dfc_succ_m12 y

theorem read_gbif_file_def (df : DataFrame) :
    read_gbif_file df =
      epochPass (removeInvalid (materializeState df).1
        (dedupConsec (sortNat (materializeState df).2))) := rfl

theorem logAll_ok (pathBase : String) :
    ∀ (occs : List Occurrence) (i : Nat),
      logAll (fun _ => Except.ok ()) pathBase i occs = some () := by
  intro occs
  induction occs with
  | nil => intro i; rfl
  | cons o os ih => intro i; exact ih (i + 1)

theorem null_flag_iff {β : Type} (cl : List (Option β)) (i : Nat) (hlen : i < cl.length) :
    i ∈ nullIndicesFrom 0 cl ↔ (cl.getD i none).isSome = false := by
  rw [mem_nullIndicesFrom]
  rw [show i - 0 = i from rfl]
  rw [optColumn_cell cl i hlen]
  rcases h : cl.getD i none with _ | v <;> simp [h]

theorem keepFrom_map_range (s : List Nat) (f : Nat → Occurrence) (n : Nat) :
    keepFrom s 0 ((List.range n).map f) =
      ((List.range n).filter (fun j => decide (¬ j ∈ s))).map f := by
  rw [List.range_eq_range']
  exact keepFrom_map_range' s f n 0

/-- Every element of the output is the epoch-completed materialization of some
row index below the frame height. -/
theorem read_gbif_mem_row (df : DataFrame)
    (hla : ∀ cl, df.decimalLatitude = some cl → cl.length = df.height)
    (hlo : ∀ cl, df.decimalLongitude = some cl → cl.length = df.height)
    (hyr : ∀ cl, df.year = some cl → cl.length = df.height)
    (hmo : ∀ cl, df.month = some cl → cl.length = df.height)
    (hda : ∀ cl, df.day = some cl → cl.length = df.height)
    (o : Occurrence) (ho : o ∈ read_gbif_file df) :
    ∃ j, j < df.height ∧
      o = { rowOccurrence df j with
            time := asU64 (calc_epoch_time (rowOccurrence df j).year
              (rowOccurrence df j).month (rowOccurrence df j).day) } := by
  rw [read_gbif_file_eq_keepFrom df hla hlo hyr hmo hda] at ho
  rcases List.mem_map.mp ho with ⟨o', ho', rfl⟩
  have ho'' : o' ∈ (List.range df.height).map (rowOccurrence df) :=
    mem_of_mem_keepFrom _ _ _ _ ho'
  rcases List.mem_map.mp ho'' with ⟨j, hj, rfl⟩
  exact ⟨j, List.mem_range.mp hj, rfl⟩

/-- C10: `calc_epoch_time` is total over all `i64` inputs: the checked
variant (where `none` marks the interior `unwrap` panicking) always returns
`some`, so the unwrap is unreachable and every input yields a timestamp or
`-1`; and the `as i32`/`as u32` casts wrap the arguments before date
validation, so out-of-range inputs are truncated rather than failing. -/
theorem C10_calc_epoch_time_total :
    (∀ y m d : Int, calc_epoch_time_checked y m d = some (calc_epoch_time y m d))
    ∧ (∀ y m d : Int, calc_epoch_time y m d =
        calc_epoch_time (asI32 y) ((asU32 m : Nat) : Int) ((asU32 d : Nat) : Int)) :=
  ⟨calc_epoch_time_checked_total, calc_epoch_time_cast_stable⟩

/-- C6: the epoch-computation and invalid-row-removal passes are independent:
running the epoch pass before removal (the order §4.3 of the specification
describes) yields exactly the sequence the source produces (which removes
first, then computes epoch times). -/
theorem C6_epoch_filter_order_equivalence (df : DataFrame) :
    read_gbif_file_epoch_before_filter df = read_gbif_file df := by
  show removeInvalid (epochPass (materializeState df).1)
        (dedupConsec (sortNat (materializeState df).2)) =
      epochPass (removeInvalid (materializeState df).1
        (dedupConsec (sortNat (materializeState df).2)))
  simp only [epochPass]
  exact removeInvalid_map _ _ _

/-- C3: the epoch converter returns `86400 ·` (day offset from 1970-01-01)
for every valid Gregorian date in chrono's year range and `-1` otherwise,
where `daysFromCivil` is pinned down as the Gregorian day count by its value
at the epoch and its step of exactly one along calendar succession; in
particular 2024-02-30 is rejected and the leap day 2024-02-29 maps to
1709164800. -/
theorem C3_epoch_converter_correct :
    (∀ y m d : Int, chronoMinYear ≤ y → y ≤ chronoMaxYear → 1 ≤ m → m ≤ 12 →
        1 ≤ d → d ≤ (daysInMonth y m.toNat : Int) →
        calc_epoch_time y m d = 86400 * daysFromCivil y m.toNat d.toNat)
    ∧ (∀ y m d : Int, chronoMinYear ≤ y → y ≤ chronoMaxYear → 0 ≤ m → m < 2 ^ 32 →
        0 ≤ d → d < 2 ^ 32 →
        ¬(1 ≤ m ∧ m ≤ 12 ∧ 1 ≤ d ∧ d ≤ (daysInMonth y m.toNat : Int)) →
        calc_epoch_time y m d = -1)
    ∧ daysFromCivil 1970 1 1 = 0
    ∧ (∀ (y : Int) (m d : Nat), 1 ≤ m → m ≤ 12 → 1 ≤ d → d ≤ daysInMonth y m →
        daysFromCivil (nextDate y m d).1 (nextDate y m d).2.1 (nextDate y m d).2.2 =
          daysFromCivil y m d + 1)
    ∧ calc_epoch_time 2024 2 30 = -1
    ∧ calc_epoch_time 2024 2 29 = 1709164800 :=
  ⟨fun y m d h1 h2 h3 h4 h5 h6 => calc_epoch_time_valid y m d h1 h2 h3 h4 h5 h6,
   fun y m d h1 h2 h3 h4 h5 h6 h7 => calc_epoch_time_invalid y m d h1 h2 h3 h4 h5 h6 h7,
   daysFromCivil_epoch,
   fun y m d h1 h2 h3 h4 => daysFromCivil_succ y m d h1 h2 h3 h4,
   by decide,
   by decide⟩

/-- C3 witness: the valid-date conjunct applied at the concrete date
2000-06-15, every hypothesis discharged by computation. -/
theorem C3_epoch_converter_correct_witness :
    calc_epoch_time 2000 6 15 = 86400 * daysFromCivil 2000 6 15 :=
  C3_epoch_converter_correct.1 2000 6 15 (by decide) (by decide) (by decide)
    (by decide) (by decide) (by decide)

/-- C2 counterexample: on a concrete surviving row with the invalid triple
2024-13-01 the stored epoch-time value is `2^64 - 1 = 18446744073709551615`
(the `u64` reinterpretation of `-1`), not the signed value `-1` the claim
asserts: the `time` field is unsigned. -/
theorem C2_invalid_date_time_not_minus_one :
    (read_gbif_file dfC2).map (fun o => (o.time : Int)) = [18446744073709551615]
    ∧ ¬((18446744073709551615 : Int) = -1) := by
  constructor
  · decide
  · decide

/-- C2 (amended): for every surviving Occurrence whose cast (year, month,
day) triple is rejected by the date constructor, `calc_epoch_time` returns
the `-1` sentinel and the record's unsigned 64-bit `time` field stores its
two's-complement reinterpretation `2^64 - 1`. -/
theorem C2_invalid_date_sentinel_wrapped (df : DataFrame) (o : Occurrence)
    (ho : o ∈ read_gbif_file df)
    (hinv : fromYmdOpt (asI32 o.year) (asU32 o.month) (asU32 o.day) = none) :
    calc_epoch_time o.year o.month o.day = -1 ∧ o.time = 2 ^ 64 - 1 := by
  have h1 : calc_epoch_time o.year o.month o.day = -1 := by
    unfold calc_epoch_time calc_epoch_time_checked
    rw [hinv]
    rfl
  refine ⟨h1, ?_⟩
  rw [read_gbif_file_def] at ho
  have h2 := epochPass_time_mem _ o ho
  rw [h2, h1]
  decide

/-- C2 amended-theorem witness: the single surviving row of `dfC2`
(2024-13-01) instantiates the theorem; both hypotheses hold by computation. -/
theorem C2_invalid_date_sentinel_wrapped_witness :
    calc_epoch_time 2024 13 1 = -1 ∧
      (18446744073709551615 : Nat) = 2 ^ 64 - 1 :=
  C2_invalid_date_sentinel_wrapped dfC2
    ⟨1, 2, 2024, 13, 1, 18446744073709551615⟩ (by decide) (by decide)

/-- C1: with both coordinate columns present, the output of `read_gbif_file`
is exactly the in-order materialization of the rows whose latitude and
longitude cells are both non-null — every row with a null coordinate is
absent, and every emitted Occurrence comes from a row with both coordinates
present. -/
theorem C1_null_coordinate_rows_excluded (df : DataFrame)
    (latc lonc : List (Option F64))
    (hlat : df.decimalLatitude = some latc) (hlon : df.decimalLongitude = some lonc)
    (hlatlen : latc.length = df.height) (hlonlen : lonc.length = df.height)
    (hyr : ∀ cl, df.year = some cl → cl.length = df.height)
    (hmo : ∀ cl, df.month = some cl → cl.length = df.height)
    (hda : ∀ cl, df.day = some cl → cl.length = df.height) :
    read_gbif_file df =
      epochPass (((List.range df.height).filter
        (fun i => (latc.getD i none).isSome && (lonc.getD i none).isSome)).map
          (rowOccurrence df)) := by
  have hla : ∀ cl, df.decimalLatitude = some cl → cl.length = df.height := by
    intro cl h; rw [hlat] at h; cases h; exact hlatlen
  have hlo : ∀ cl, df.decimalLongitude = some cl → cl.length = df.height := by
    intro cl h; rw [hlon] at h; cases h; exact hlonlen
  rw [read_gbif_file_eq_keepFrom df hla hlo hyr hmo hda, keepFrom_map_range]
  congr 1
  congr 1
  apply List.filter_congr
  intro i hi
  have hih : i < df.height := List.mem_range.mp hi
  have h1 := null_flag_iff latc i (by omega)
  have h2 := null_flag_iff lonc i (by omega)
  cases hs1 : (latc.getD i none).isSome <;> cases hs2 : (lonc.getD i none).isSome
  · have hm1 : i ∈ nullIndicesFrom 0 latc := h1.mpr hs1
    have hm2 : i ∈ nullIndicesFrom 0 lonc := h2.mpr hs2
    simp [flaggedIndices, hlat, hlon, hm1, hm2]
  · have hm1 : i ∈ nullIndicesFrom 0 latc := h1.mpr hs1
    simp [flaggedIndices, hlat, hlon, hm1]
  · have hm2 : i ∈ nullIndicesFrom 0 lonc := h2.mpr hs2
    simp [flaggedIndices, hlat, hlon, hm2]
  · have hm1 : ¬(i ∈ nullIndicesFrom 0 latc) := fun hx => by
      have hc := h1.mp hx
      rw [hs1] at hc
      exact Bool.noConfusion hc
    have hm2 : ¬(i ∈ nullIndicesFrom 0 lonc) := fun hx => by
      have hc := h2.mp hx
      rw [hs2] at hc
      exact Bool.noConfusion hc
    simp [flaggedIndices, hlat, hlon, hm1, hm2]

/-- C1 witness: the five-row scenario of §8 with row 2's longitude null —
both sides evaluate to the four rows 0, 1, 3, 4 in order. -/
theorem C1_null_coordinate_rows_excluded_witness :
    read_gbif_file dfC1 =
      epochPass (((List.range dfC1.height).filter
        (fun i => (([some 10, some 11, some 12, some 13, some 14].getD i none).isSome
          && ([some 20, some 21, none, some 23, some 24].getD i none).isSome))).map
          (rowOccurrence dfC1)) :=
  C1_null_coordinate_rows_excluded dfC1
    [some 10, some 11, some 12, some 13, some 14]
    [some 20, some 21, none, some 23, some 24]
    rfl rfl rfl rfl
    (fun cl h => by cases h; rfl)
    (fun cl h => by cases h; rfl)
    (fun cl h => by cases h; rfl)

/-- C5: the flagged-index list, sorted and consecutive-deduplicated, is
strictly increasing (so the descending removal hits each flagged row exactly
once and never invalidates a later index), has exactly the flagged indices as
members even when a row was flagged by both coordinate columns, and the
resulting sequence is the order-preserving filter of the materialized rows by
index not in the flagged set. -/
theorem C5_invalid_removal_is_stable_filter (df : DataFrame)
    (hla : ∀ cl, df.decimalLatitude = some cl → cl.length = df.height)
    (hlo : ∀ cl, df.decimalLongitude = some cl → cl.length = df.height)
    (hyr : ∀ cl, df.year = some cl → cl.length = df.height)
    (hmo : ∀ cl, df.month = some cl → cl.length = df.height)
    (hda : ∀ cl, df.day = some cl → cl.length = df.height) :
    List.Pairwise (· < ·) (dedupConsec (sortNat (flaggedIndices df)))
    ∧ (∀ i, i ∈ dedupConsec (sortNat (flaggedIndices df)) ↔ i ∈ flaggedIndices df)
    ∧ read_gbif_file df =
        epochPass (((((List.range df.height).map (rowOccurrence df)).enumFrom 0).filter
          (fun p => decide (¬ p.1 ∈ flaggedIndices df))).map Prod.snd) := by
  refine ⟨pairwise_lt_dedupConsec _ (sortNat_pairwise _),
    fun i => by rw [mem_dedupConsec, mem_sortNat], ?_⟩
  rw [read_gbif_file_eq_keepFrom df hla hlo hyr hmo hda]
  congr 1
  exact keepFrom_eq_enumFrom_filter _ _ 0

/-- C5 witness: the frame whose middle row is flagged by both the latitude
and the longitude column; the theorem instantiated there, with the
dedup-membership conjunct taken at the doubly-flagged index 1. -/
theorem C5_invalid_removal_is_stable_filter_witness :
    List.Pairwise (· < ·) (dedupConsec (sortNat (flaggedIndices dfC5)))
    ∧ (1 ∈ dedupConsec (sortNat (flaggedIndices dfC5)) ↔ 1 ∈ flaggedIndices dfC5)
    ∧ read_gbif_file dfC5 =
        epochPass (((((List.range dfC5.height).map (rowOccurrence dfC5)).enumFrom 0).filter
          (fun p => decide (¬ p.1 ∈ flaggedIndices dfC5))).map Prod.snd) := by
  have h := C5_invalid_removal_is_stable_filter dfC5
    (fun cl h => by cases h; rfl)
    (fun cl h => by cases h; rfl)
    (fun cl h => by cases h)
    (fun cl h => by cases h)
    (fun cl h => by cases h)
  exact ⟨h.1, h.2.1 1, h.2.2⟩

/-- C4: a row with both coordinates present survives filtering; its null
year/month/day cells are replaced by the defaults 1970, 1 and 1 per missing
field; and the epoch converter is still invoked on the resulting triple (the
surviving record's `time` field is exactly the converted value of its own
populated triple). -/
theorem C4_null_date_parts_defaulted (df : DataFrame) (i : Nat) (hi : i < df.height)
    (latc lonc : List (Option F64))
    (hlat : df.decimalLatitude = some latc) (hlon : df.decimalLongitude = some lonc)
    (hlatlen : latc.length = df.height) (hlonlen : lonc.length = df.height)
    (hyr : ∀ cl, df.year = some cl → cl.length = df.height)
    (hmo : ∀ cl, df.month = some cl → cl.length = df.height)
    (hda : ∀ cl, df.day = some cl → cl.length = df.height)
    (hlatv : (latc.getD i none).isSome = true)
    (hlonv : (lonc.getD i none).isSome = true) :
    ({ rowOccurrence df i with
        time := asU64 (calc_epoch_time (rowOccurrence df i).year
          (rowOccurrence df i).month (rowOccurrence df i).day) } ∈ read_gbif_file df)
    ∧ (∀ yc, df.year = some yc → yc.getD i none = none → (rowOccurrence df i).year = 1970)
    ∧ (∀ mc, df.month = some mc → mc.getD i none = none → (rowOccurrence df i).month = 1)
    ∧ (∀ dc, df.day = some dc → dc.getD i none = none → (rowOccurrence df i).day = 1) := by
  have hla : ∀ cl, df.decimalLatitude = some cl → cl.length = df.height := by
    intro cl h; rw [hlat] at h; cases h; exact hlatlen
  have hlo : ∀ cl, df.decimalLongitude = some cl → cl.length = df.height := by
    intro cl h; rw [hlon] at h; cases h; exact hlonlen
  refine ⟨?_, ?_, ?_, ?_⟩
  · rw [read_gbif_file_eq_keepFrom df hla hlo hyr hmo hda]
    apply List.mem_map.mpr
    refine ⟨rowOccurrence df i, ?_, rfl⟩
    have hnf : ¬((0 + i) ∈ flaggedIndices df) := by
      rw [Nat.zero_add]
      intro hx
      rcases List.mem_append.mp (by simpa [flaggedIndices, hlat, hlon] using hx) with hxl | hxr
      · have hc := (null_flag_iff latc i (by omega)).mp hxl
        rw [hlatv] at hc
        exact Bool.noConfusion hc
      · have hc := (null_flag_iff lonc i (by omega)).mp hxr
        rw [hlonv] at hc
        exact Bool.noConfusion hc
    have hlen : i < ((List.range df.height).map (rowOccurrence df)).length := by
      simpa using hi
    have hmem := getElem_mem_keepFrom (flaggedIndices df) _ 0 i hlen hnf
    have hval : ((List.range df.height).map (rowOccurrence df))[i] = rowOccurrence df i := by
      simp
    rw [hval] at hmem
    exact hmem
  · intro yc hyc hv
    simp only [List.getD_eq_getElem?_getD] at hv
    simp [rowOccurrence, hyc, hv]
  · intro mc hmc hv
    simp only [List.getD_eq_getElem?_getD] at hv
    simp [rowOccurrence, hmc, hv]
  · intro dc hdc hv
    simp only [List.getD_eq_getElem?_getD] at hv
    simp [rowOccurrence, hdc, hv]

/-- C4 witness: one row with coordinates (5, 6) and all date parts null —
the surviving record is (5, 6, 1970, 1, 1) with epoch time 0. -/
theorem C4_null_date_parts_defaulted_witness :
    ((⟨5, 6, 1970, 1, 1, 0⟩ : Occurrence) ∈ read_gbif_file dfC4)
    ∧ (rowOccurrence dfC4 0).year = 1970
    ∧ (rowOccurrence dfC4 0).month = 1
    ∧ (rowOccurrence dfC4 0).day = 1 := by
  have h := C4_null_date_parts_defaulted dfC4 0 (by decide) [some 5] [some 6]
    rfl rfl rfl rfl
    (fun cl hcl => by cases hcl; rfl)
    (fun cl hcl => by cases hcl; rfl)
    (fun cl hcl => by cases hcl; rfl)
    (by decide) (by decide)
  exact ⟨h.1, h.2.1 [none] rfl (by decide), h.2.2.1 [none] rfl (by decide),
    h.2.2.2 [none] rfl (by decide)⟩

/-- C9: an absent column flags no row as invalid: with the latitude
(respectively longitude) column missing, the flagged set comes from the other
coordinate column alone and every surviving record carries the
`Occurrence::default()` value `0.0` in that coordinate; a missing
year/month/day column leaves the default `0` in its field — not the
null-value defaults 1970/1/1 — so column absence and per-value nullness are
treated differently. -/
theorem C9_absent_columns_default_zero (df : DataFrame)
    (hla : ∀ cl, df.decimalLatitude = some cl → cl.length = df.height)
    (hlo : ∀ cl, df.decimalLongitude = some cl → cl.length = df.height)
    (hyr : ∀ cl, df.year = some cl → cl.length = df.height)
    (hmo : ∀ cl, df.month = some cl → cl.length = df.height)
    (hda : ∀ cl, df.day = some cl → cl.length = df.height) :
    (df.decimalLatitude = none →
        flaggedIndices df = (match df.decimalLongitude with
                             | some cl => nullIndicesFrom 0 cl
                             | none => []) ∧
        ∀ o ∈ read_gbif_file df, o.decimal_latitude = 0)
    ∧ (df.decimalLongitude = none →
        flaggedIndices df = (match df.decimalLatitude with
                             | some cl => nullIndicesFrom 0 cl
                             | none => []) ∧
        ∀ o ∈ read_gbif_file df, o.decimal_longitude = 0)
    ∧ (df.year = none → ∀ o ∈ read_gbif_file df, o.year = 0)
    ∧ (df.month = none → ∀ o ∈ read_gbif_file df, o.month = 0)
    ∧ (df.day = none → ∀ o ∈ read_gbif_file df, o.day = 0) := by
  refine ⟨fun h => ⟨?_, ?_⟩, fun h => ⟨?_, ?_⟩, fun h o ho => ?_, fun h o ho => ?_,
    fun h o ho => ?_⟩
  · simp [flaggedIndices, h]
  · intro o ho
    rcases read_gbif_mem_row df hla hlo hyr hmo hda o ho with ⟨j, hj, rfl⟩
    simp [rowOccurrence, h]
  · simp [flaggedIndices, h]
  · intro o ho
    rcases read_gbif_mem_row df hla hlo hyr hmo hda o ho with ⟨j, hj, rfl⟩
    simp [rowOccurrence, h]
  · rcases read_gbif_mem_row df hla hlo hyr hmo hda o ho with ⟨j, hj, rfl⟩
    simp [rowOccurrence, h]
  · rcases read_gbif_mem_row df hla hlo hyr hmo hda o ho with ⟨j, hj, rfl⟩
    simp [rowOccurrence, h]
  · rcases read_gbif_mem_row df hla hlo hyr hmo hda o ho with ⟨j, hj, rfl⟩
    simp [rowOccurrence, h]

/-- C9 witness: the all-columns-absent frame of height 2 — nothing is
flagged and the surviving records carry zero in every data field (their time
field is the wrapped `-1` of the invalid triple 0-0-0). -/
theorem C9_absent_columns_default_zero_witness :
    flaggedIndices dfC9 = []
    ∧ (⟨0, 0, 0, 0, 0, 18446744073709551615⟩ : Occurrence).decimal_latitude = 0
    ∧ (⟨0, 0, 0, 0, 0, 18446744073709551615⟩ : Occurrence).year = 0 := by
  have h := C9_absent_columns_default_zero dfC9
    (fun cl hcl => by cases hcl)
    (fun cl hcl => by cases hcl)
    (fun cl hcl => by cases hcl)
    (fun cl hcl => by cases hcl)
    (fun cl hcl => by cases hcl)
  have hm : (⟨0, 0, 0, 0, 0, 18446744073709551615⟩ : Occurrence) ∈ read_gbif_file dfC9 := by
    decide
  exact ⟨(h.1 rfl).1, (h.1 rfl).2 _ hm, h.2.2.1 rfl _ hm⟩

theorem logAll_fail (pathBase : String) (e : SinkError) (occs : List Occurrence)
    (i : Nat) (h : occs ≠ []) :
    logAll (fun _ => Except.error e) pathBase i occs = none := by
  cases occs with
  | nil => exact absurd rfl h
  | cons o rest => rfl

/-- C7: a failed sink connection aborts the run, a failed log call against
the sink aborts the run as soon as there is a point to log (the model's
`none`, the source's `expect` panic), an ingestion failure likewise
terminates it, while row-level data defects never surface as errors: with
ingestion and sink operations all succeeding, the run completes for every
data frame, however many null cells it contains. -/
theorem C7_failure_policy :
    (∀ (great : Except IngestError DataFrame) (connect : Except SinkError Unit)
        (logOp : String → Except SinkError Unit) (e : IngestError),
        main_model (Except.error e) great connect logOp = none)
    ∧ (∀ (tiger : Except IngestError DataFrame) (connect : Except SinkError Unit)
        (logOp : String → Except SinkError Unit) (e : IngestError),
        main_model tiger (Except.error e) connect logOp = none)
    ∧ (∀ (df1 df2 : DataFrame) (logOp : String → Except SinkError Unit) (e : SinkError),
        main_model (Except.ok df1) (Except.ok df2) (Except.error e) logOp = none)
    ∧ (∀ (df1 df2 : DataFrame) (e : SinkError),
        read_gbif_file df1 ≠ [] →
        main_model (Except.ok df1) (Except.ok df2) (Except.ok ())
          (fun _ => Except.error e) = none)
    ∧ (∀ (df1 df2 : DataFrame) (e : SinkError),
        read_gbif_file df2 ≠ [] →
        main_model (Except.ok df1) (Except.ok df2) (Except.ok ())
          (fun _ => Except.error e) = none)
    ∧ (∀ df1 df2 : DataFrame,
        main_model (Except.ok df1) (Except.ok df2) (Except.ok ())
          (fun _ => Except.ok ()) = some ()) := by
  refine ⟨fun great connect logOp e => rfl, ?_, fun df1 df2 logOp e => rfl, ?_, ?_, ?_⟩
  · intro tiger connect logOp e
    cases tiger <;> rfl
  · intro df1 df2 e h
    show (match logAll (fun _ => Except.error e) "tigershark/" 0 (read_gbif_file df1) with
          | none => none
          | some _ => logAll (fun _ => Except.error e) "greatwhiteshark/" 0
              (read_gbif_file df2)) = none
    rw [logAll_fail _ _ _ _ h]
  · intro df1 df2 e h
    show (match logAll (fun _ => Except.error e) "tigershark/" 0 (read_gbif_file df1) with
          | none => none
          | some _ => logAll (fun _ => Except.error e) "greatwhiteshark/" 0
              (read_gbif_file df2)) = none
    cases hl : read_gbif_file df1 with
    | nil =>
      rw [show logAll (fun _ => Except.error e) "tigershark/" 0 [] = some () from rfl]
      exact logAll_fail _ _ _ _ h
    | cons o rest =>
      rw [logAll_fail _ _ _ _ (by simp)]
  · intro df1 df2
    show (match logAll (fun _ => Except.ok ()) "tigershark/" 0 (read_gbif_file df1) with
          | none => none
          | some _ => logAll (fun _ => Except.ok ()) "greatwhiteshark/" 0
              (read_gbif_file df2)) = some ()
    rw [logAll_ok, logAll_ok]

/-- C7 witness: both log-failure conjuncts applied to concrete runs — a
sink whose every log call fails aborts the run when the tiger-shark dataset
is nonempty, and likewise when the great-white dataset is nonempty. -/
theorem C7_failure_policy_witness :
    read_gbif_file dfC4 ≠ []
    ∧ main_model (Except.ok dfC4) (Except.ok dfC9) (Except.ok ())
        (fun _ => Except.error SinkError.logFailed) = none
    ∧ main_model (Except.ok dfC9) (Except.ok dfC4) (Except.ok ())
        (fun _ => Except.error SinkError.logFailed) = none := by
  refine ⟨by decide, ?_, ?_⟩
  · exact C7_failure_policy.2.2.2.1 dfC4 dfC9 SinkError.logFailed (by decide)
  · exact C7_failure_policy.2.2.2.2.1 dfC9 dfC4 SinkError.logFailed (by decide)

/-- C8: for every positive radius the projector maps the pole and the origin
point onto the coordinate axes: `project(90, 0, r) = (0, 0, r)` and
`project(0, 0, r) = (r, 0, 0)` — exactly, in the real-valued model, which
subsumes the claim's floating-point tolerance. -/
theorem C8_projection_pole_and_origin (r : ℝ) (hr : 0 < r) :
    lat_lon_to_xyz 90 0 r = (0, 0, r) ∧ lat_lon_to_xyz 0 0 r = (r, 0, 0) := by
  have h90 : (90 : ℝ) * Real.pi / 180 = Real.pi / 2 := by ring
  have h0 : (0 : ℝ) * Real.pi / 180 = 0 := by ring
  constructor
  · simp only [lat_lon_to_xyz, h90, h0, Real.cos_pi_div_two, Real.sin_pi_div_two,
      Real.cos_zero, Real.sin_zero]
    norm_num
  · simp only [lat_lon_to_xyz, h0, Real.cos_zero, Real.sin_zero]
    norm_num

/-- C8 witness: the theorem applied at the concrete positive radius 1. -/
theorem C8_projection_pole_and_origin_witness :
    (0 : ℝ) < 1 ∧ lat_lon_to_xyz 90 0 1 = (0, 0, 1) ∧ lat_lon_to_xyz 0 0 1 = (1, 0, 0) :=
  ⟨one_pos, (C8_projection_pole_and_origin 1 one_pos).1,
    (C8_projection_pole_and_origin 1 one_pos).2⟩
